import Mathlib

/-
Verification of the serial-to-WebSocket relay backend (src/main.py).

The development shallowly embeds the pieces of the program the claims
are about:
 - the line codec inside `read_arduino_data` (utf-8 strip, the textual
   sentinel substitution at line 112, `json.loads`, and the
   `filtered_data` record extraction at lines 119-126);
 - the broadcast hub (`broadcast`, lines 151-164) over the
   `active_connections` set, both as a sequential pass and as a
   step-interleaved pass faithful to asyncio suspension points;
 - the websocket disconnect handler's `active_connections.remove`
   (line 180, Python `set.remove` raises KeyError on absent elements);
 - the `/joystick/button` endpoint (lines 184-192) with its pydantic
   required-field validation;
 - the device locator `find_arduino_port` (lines 54-70), including the
   log f-string at line 61 whose format specifier raises TypeError when
   `vid` is truthy while `pid` is None.

Machine integers do not occur (Python ints are unbounded); numbers in
JSON payloads are modelled as rationals.
-/

/-- Python values produced by `json.loads`: null becomes None, booleans
become bool, numbers int/float (merged here into one rational-valued
constructor, with the float specials NaN and signed Infinity apart),
strings str, arrays list, objects dict (kept as the parsed key/value
list; lookup is last-occurrence-wins like Python dict construction). -/
inductive Json where
  | null
  | bool (b : Bool)
  | num (q : ℚ)
  | nan
  | inf (neg : Bool)
  | str (s : String)
  | arr (elems : List Json)
  | obj (members : List (String × Json))

/-- JSON insignificant whitespace, as in Python's json module. -/
def jsonWs (c : Char) : Bool :=
  (c == ' ') || (c == '\t') || (c == '\n') || (c == '\r')

def skipWs (cs : List Char) : List Char := cs.dropWhile jsonWs

def hexVal (c : Char) : Option ℕ :=
  if c.isDigit then some (c.toNat - 48)
  else if ('a' ≤ c && c ≤ 'f') then some (c.toNat - 87)
  else if ('A' ≤ c && c ≤ 'F') then some (c.toNat - 55)
  else none

def escChar (c : Char) : Option Char :=
  match c with
  | '"' => some '"'
  | '\\' => some '\\'
  | '/' => some '/'
  | 'b' => some (Char.ofNat 8)
  | 'f' => some (Char.ofNat 12)
  | 'n' => some (Char.ofNat 10)
  | 'r' => some (Char.ofNat 13)
  | 't' => some (Char.ofNat 9)
  | _ => none

/-- Body of a JSON string after the opening quote: returns the decoded
characters and the rest of the input after the closing quote.  Raw
control characters are invalid (Python json strict mode); a lone
`\\uXXXX` escape becomes the corresponding character. -/
def parseStringBody : List Char → Option (List Char × List Char)
  | [] => none
  | c :: rest =>
    if c == '"' then some ([], rest)
    else if c == '\\' then
      match rest with
      | [] => none
      | e :: rest2 =>
        if e == 'u' then
          match rest2 with
          | a :: b :: c2 :: d :: rest3 =>
            match hexVal a, hexVal b, hexVal c2, hexVal d with
            | some ha, some hb, some hc, some hd =>
              match parseStringBody rest3 with
              | some (tl, rem) => some (Char.ofNat (((ha * 16 + hb) * 16 + hc) * 16 + hd) :: tl, rem)
              | none => none
            | _, _, _, _ => none
          | _ => none
        else
          match escChar e with
          | some ec =>
            match parseStringBody rest2 with
            | some (tl, rem) => some (ec :: tl, rem)
            | none => none
          | none => none
    else if c.toNat < 32 then none
    else
      match parseStringBody rest with
      | some (tl, rem) => some (c :: tl, rem)
      | none => none

def digitsToNat (ds : List Char) : ℕ :=
  ds.foldl (fun a c => a * 10 + (c.toNat - 48)) 0

/-- Fractional part `.ddd` of a JSON number; if absent or not followed by
a digit, nothing is consumed (Python's NUMBER_RE leaves it for the
surrounding grammar to reject). -/
def parseFrac (cs : List Char) : ℚ × List Char :=
  match cs with
  | '.' :: t =>
    let p := t.span (fun c => c.isDigit)
    if p.1 = [] then (0, cs) else ((digitsToNat p.1 : ℚ) / (10 : ℚ) ^ p.1.length, p.2)
  | _ => (0, cs)

/-- Exponent part `e[+-]ddd` of a JSON number; if incomplete, nothing is
consumed. -/
def parseExp (cs : List Char) : ℤ × List Char :=
  match cs with
  | e :: t =>
    if e == 'e' || e == 'E' then
      match t with
      | '+' :: t2 =>
        let p := t2.span (fun c => c.isDigit)
        if p.1 = [] then (0, cs) else ((digitsToNat p.1 : ℤ), p.2)
      | '-' :: t2 =>
        let p := t2.span (fun c => c.isDigit)
        if p.1 = [] then (0, cs) else (-(digitsToNat p.1 : ℤ), p.2)
      | _ =>
        let p := t.span (fun c => c.isDigit)
        if p.1 = [] then (0, cs) else ((digitsToNat p.1 : ℤ), p.2)
    else (0, cs)
  | [] => (0, cs)

def signApply (neg : Bool) (q : ℚ) : ℚ := if neg then -q else q

/-- A JSON number at the head of the input, following Python json's
NUMBER_RE `(-?(0|[1-9]d*))(.d+)?([eE][-+]?d+)?` with maximal munch. -/
def parseNumber (cs : List Char) : Option (ℚ × List Char) :=
  let h := match cs with
    | '-' :: t => (true, t)
    | _ => (false, cs)
  match h.2 with
  | [] => none
  | c :: t =>
    if c == '0' then
      let f := parseFrac t
      let e := parseExp f.2
      some (signApply h.1 ((0 + f.1) * (10 : ℚ) ^ e.1), e.2)
    else if c.isDigit then
      let p := (c :: t).span (fun d => d.isDigit)
      let f := parseFrac p.2
      let e := parseExp f.2
      some (signApply h.1 (((digitsToNat p.1 : ℚ) + f.1) * (10 : ℚ) ^ e.1), e.2)
    else none

def stripLit (lit : String) (cs : List Char) (v : Json) : Option (Json × List Char) :=
  if lit.data.isPrefixOf cs then some (v, cs.drop lit.data.length) else none

mutual

/-- One JSON value at the head of the (already whitespace-skipped)
input.  Fuel bounds recursion depth; callers pass more fuel than the
input length so it never runs out on real inputs. -/
def parseVal : ℕ → List Char → Option (Json × List Char)
  | 0, _ => none
  | f + 1, cs =>
    match cs with
    | [] => none
    | c :: rest =>
      if c == '\x7b' then
        match skipWs rest with
        | '\x7d' :: r => some (.obj [], r)
        | cs1 => parseMembers f cs1
      else if c == '[' then
        match skipWs rest with
        | ']' :: r => some (.arr [], r)
        | cs1 => parseElems f cs1
      else if c == '"' then
        match parseStringBody rest with
        | some (chars, r) => some (.str (String.mk chars), r)
        | none => none
      else if c == 't' then stripLit ("rue") rest (.bool true)
      else if c == 'f' then stripLit ("alse") rest (.bool false)
      else if c == 'n' then stripLit ("ull") rest .null
      else if c == 'N' then stripLit ("aN") rest .nan
      else if c == 'I' then stripLit ("nfinity") rest (.inf false)
      else if c == '-' then
        if ("Infinity").data.isPrefixOf rest then some (.inf true, rest.drop 8)
        else
          match parseNumber cs with
          | some (q, r) => some (.num q, r)
          | none => none
      else if c.isDigit then
        match parseNumber cs with
        | some (q, r) => some (.num q, r)
        | none => none
      else none

/-- The members of a JSON object, entered at the first key (input
already whitespace-skipped, known not to start with the closing
brace). -/
def parseMembers : ℕ → List Char → Option (Json × List Char)
  | 0, _ => none
  | f + 1, cs =>
    match cs with
    | '"' :: rest =>
      match parseStringBody rest with
      | some (kchars, r1) =>
        match skipWs r1 with
        | ':' :: r2 =>
          match parseVal f (skipWs r2) with
          | some (v, r3) =>
            match skipWs r3 with
            | ',' :: r4 =>
              match parseMembers f (skipWs r4) with
              | some (.obj ms, r5) => some (.obj ((String.mk kchars, v) :: ms), r5)
              | _ => none
            | '\x7d' :: r4 => some (.obj [(String.mk kchars, v)], r4)
            | _ => none
          | none => none
        | _ => none
      | none => none
    | _ => none

/-- The elements of a JSON array, entered at the first element. -/
def parseElems : ℕ → List Char → Option (Json × List Char)
  | 0, _ => none
  | f + 1, cs =>
    match parseVal f cs with
    | some (v, r1) =>
      match skipWs r1 with
      | ',' :: r2 =>
        match parseElems f (skipWs r2) with
        | some (.arr vs, r3) => some (.arr (v :: vs), r3)
        | _ => none
      | ']' :: r2 => some (.arr [v], r2)
      | _ => none
    | none => none

end

/-- `json.loads`: one document, surrounded only by whitespace;
trailing non-whitespace is the "Extra data" error.  `none` is
`json.JSONDecodeError`. -/
def json_loads (s : String) : Option Json :=
  match parseVal (s.data.length + 1) (skipWs s.data) with
  | some (v, rest) => if skipWs rest = [] then some v else none
  | none => none

/-- Python whitespace for `str.strip` (the ASCII whitespace class;
exotic unicode spaces are not exercised by the device protocol). -/
def pyIsSpace (c : Char) : Bool :=
  (c == ' ') || (c == '\t') || (c == '\n') || (c == '\r') || (c == '\x0b') || (c == '\x0c')

/-- Python `str.strip()`: drop leading and trailing whitespace. -/
def pyStrip (s : String) : String :=
  String.mk (((s.data.dropWhile pyIsSpace).reverse.dropWhile pyIsSpace).reverse)

/-- Python `str.replace`, scanning left to right and replacing each
non-overlapping occurrence of the (nonempty) pattern `p0 :: pt` by
`rep`.  Structural recursion on fuel keeps the definition
kernel-reducible; every step consumes at least one input character, so
fuel equal to the input length never runs out. -/
def replaceAll (p0 : Char) (pt rep : List Char) : ℕ → List Char → List Char
  | 0, s => s
  | _ + 1, [] => []
  | fuel + 1, c :: rest =>
    if (c == p0) && pt.isPrefixOf rest then
      rep ++ replaceAll p0 pt rep fuel (rest.drop pt.length)
    else
      c :: replaceAll p0 pt rep fuel rest

/-- Python `str.replace` on strings (empty patterns do not occur in the
program; they are mapped to the identity). -/
def pyReplace (s pat rep : String) : String :=
  match pat.data with
  | [] => s
  | p0 :: pt => String.mk (replaceAll p0 pt rep.data s.data.length s.data)

/-- Line 112 of src/main.py:
`line.replace(':nan,', ':null,').replace(':nan}', ':null}')`. -/
def sentinelFix (line : String) : String :=
  pyReplace (pyReplace line (":nan,") (":null,")) (":nan\x7d") (":null\x7d")

/-- Last-occurrence-wins association lookup: the value `dict(...)` built
by `json.loads` holds for a key, `none` when the key is absent. -/
def jLookup (ms : List (String × Json)) (k : String) : Option Json :=
  match ms with
  | [] => none
  | kv :: rest =>
    match jLookup rest k with
    | some v2 => some v2
    | none => if kv.1 == k then some kv.2 else none

/-- Python `data.get(k)`: absent keys give None (and a stored null is
also None, so both collapse to `Json.null`). -/
def jGet (ms : List (String × Json)) (k : String) : Json :=
  (jLookup ms k).getD .null

/-- Python `data.get(k, default)`. -/
def jGetD (ms : List (String × Json)) (k : String) (d : Json) : Json :=
  (jLookup ms k).getD d

/-- The `filtered_data` dict built at lines 119-126 of src/main.py.
Numeric fields hold the parsed value or None (`Json.null`) when the key
is absent; `intruder` and `fire` default to False when absent.  The
code performs no type validation, so fields hold whatever value the
line carried. -/
structure TelemetryRecord where
  temperature_c : Json
  humidity : Json
  brightness : Json
  sound : Json
  intruder : Json
  fire : Json

/-- Lines 119-126 of src/main.py applied to a parsed object. -/
def recordOf (ms : List (String × Json)) : TelemetryRecord :=
  ⟨jGet ms ("temperature_c"), jGet ms ("humidity"), jGet ms ("brightness"),
   jGet ms ("sound"), jGetD ms ("intruder") (.bool false), jGetD ms ("fire") (.bool false)⟩

/-- Outcome of handing one decoded text line to the codec portion of
`read_arduino_data` (lines 104-126): `empty` is the silent skip at line
106, `malformed` the `json.JSONDecodeError` handler, `typeError` the
generic `except Exception` reached when a structurally valid line is
not an object (`data.get` then raises AttributeError). -/
inductive DecodeResult where
  | empty
  | malformed
  | typeError
  | ok (r : TelemetryRecord)

/-- The line codec: strip, skip empties, sentinel substitution, JSON
parse, record extraction. -/
def decode (line : String) : DecodeResult :=
  let t := pyStrip line
  if t = ("") then .empty
  else
    match json_loads (sentinelFix t) with
    | none => .malformed
    | some (.obj ms) => .ok (recordOf ms)
    | some _ => .typeError

/-- The dict broadcast at line 132 is `filtered_data` itself. -/
def recordJson (r : TelemetryRecord) : Json :=
  .obj [("temperature_c", r.temperature_c), ("humidity", r.humidity),
        ("brightness", r.brightness), ("sound", r.sound),
        ("intruder", r.intruder), ("fire", r.fire)]

/-- The fan-out loop of `broadcast` (lines 153-159): traverse the
subscribers, collecting those whose `send_json` succeeds and those
whose send raises.  `sendOk` abstracts per-subscriber delivery
success. -/
def broadcastPass (sendOk : ℕ → Bool) : List ℕ → List ℕ × List ℕ × List ℕ
  | [] => ([], [], [])
  | c :: rest =>
    let r := broadcastPass sendOk rest
    if sendOk c then (c :: r.1, c :: r.2.1, r.2.2) else (c :: r.1, r.2.1, c :: r.2.2)

structure BroadcastResult where
  attempted : List ℕ
  delivered : List ℕ
  pruned : List ℕ
  conns : Finset ℕ

/-- The enumeration a `for` loop sees over the subscriber set.  Python
set order is arbitrary and not part of any contract; we fix the sorted
enumeration so that the model stays executable. -/
def connList (s : Finset ℕ) : List ℕ := s.sort (· ≤ ·)

/-- `broadcast` (lines 151-164): fan out over the current subscriber
set, then `difference_update` the failures (guarded by the
`if disconnected:` check). -/
def broadcast (sendOk : ℕ → Bool) (s : Finset ℕ) : BroadcastResult :=
  let r := broadcastPass sendOk (connList s)
  ⟨r.1, r.2.1, r.2.2, if r.2.2 = [] then s else s \ r.2.2.toFinset⟩

/-- One iteration body of the reading loop (lines 97-142) on a decoded
line: a record is broadcast, any decode failure leaves the subscriber
set untouched and emits nothing, and the loop continues either way.
Returns the new subscriber set and the deliveries made. -/
def ingestLine (sendOk : ℕ → Bool) (conns : Finset ℕ) (line : String) :
    Finset ℕ × List (ℕ × Json) :=
  match decode line with
  | .ok r =>
    let b := broadcast sendOk conns
    (b.conns, b.delivered.map (fun c => (c, recordJson r)))
  | _ => (conns, [])

/-- The reading loop folded over a finite prefix of the incoming line
stream. -/
def ingestRun (sendOk : ℕ → Bool) (conns : Finset ℕ) : List String → Finset ℕ × List (ℕ × Json)
  | [] => (conns, [])
  | l :: rest =>
    let s := ingestLine sendOk conns l
    let t := ingestRun sendOk s.1 rest
    (t.1, s.2 ++ t.2)

/-- HTTP outcome of the `/joystick/button` route: FastAPI returns the
handler's `ok` payload on validation success and a 422 client error
when the required `pressed` field is missing. -/
inductive ApiResp where
  | ok
  | unprocessable

/-- The tagged payload broadcast at line 190. -/
def joystickPayload (b : Bool) : Json :=
  .obj [("type", .str ("joystick_button")), ("pressed", .bool b)]

/-- Pydantic validation of the request body against
`class JoystickButton(BaseModel): pressed: bool` (lines 46-47): the
required field must be present with a boolean value. -/
def validateButton (body : Json) : Option Bool :=
  match body with
  | .obj ms =>
    match jLookup ms ("pressed") with
    | some (.bool b) => some b
    | _ => none
  | _ => none

/-- The `/joystick/button` endpoint (lines 184-192): validation, then a
single broadcast of the tagged payload, then the ok acknowledgment;
failed validation rejects the request before any broadcast.  Returns
the deliveries made, the subscriber set afterwards, and the HTTP
outcome. -/
def submitButton (sendOk : ℕ → Bool) (conns : Finset ℕ) (body : Json) :
    List (ℕ × Json) × Finset ℕ × ApiResp :=
  match validateButton body with
  | none => ([], conns, .unprocessable)
  | some b =>
    let r := broadcast sendOk conns
    (r.delivered.map (fun c => (c, joystickPayload b)), r.conns, .ok)

/-- One entry of `serial.tools.list_ports.comports()`: the fields
`find_arduino_port` reads. -/
structure PortInfo where
  device : String
  vid : Option ℕ
  pid : Option ℕ
deriving DecidableEq

/-- The `ARDUINO_UNO_IDS` table (lines 38-43). -/
def ARDUINO_UNO_IDS : List (ℕ × ℕ) :=
  [(0x2341, 0x0043), (0x2341, 0x0001), (0x2A03, 0x0043), (0x1A86, 0x7523)]

/-- The log f-string at line 61:
`f"{port.vid:04X}:{port.pid:04X}" if port.vid else "N/A"`.
When `port.vid` is truthy (present and nonzero) but `port.pid` is None,
formatting None with `04X` raises TypeError; the returned text itself
is only logged, so its exact shape is irrelevant and elided. -/
def formatVidPid (p : PortInfo) : Except Unit Unit :=
  match p.vid with
  | none => .ok ()
  | some v =>
    if v = 0 then .ok ()
    else
      match p.pid with
      | some _ => .ok ()
      | none => .error ()

/-- The match test at lines 64-65: both identifiers present and the
pair a member of the known table. -/
def portMatches (p : PortInfo) : Bool :=
  match p.vid, p.pid with
  | some v, some i => ARDUINO_UNO_IDS.contains (v, i)
  | _, _ => false

/-- `find_arduino_port` (lines 54-70) over a given enumeration: log
each port (whose f-string can raise), return the first match, else
None.  `.error` is an uncaught Python exception escaping the
function. -/
def find_arduino_port : List PortInfo → Except Unit (Option String)
  | [] => .ok none
  | p :: rest =>
    match formatVidPid p with
    | .error e => .error e
    | .ok _ =>
      if portMatches p then .ok (some p.device) else find_arduino_port rest

/-- Python `set.remove` as called by the WebSocketDisconnect handler at
line 180: removing an absent element raises KeyError (`.error`). -/
def pySetRemove (s : Finset ℕ) (x : ℕ) : Except Unit (Finset ℕ) :=
  if x ∈ s then .ok (s.erase x) else .error ()

/-- Python `set.add` as called at line 169 (no-op on a present
element), on the list view of the live set. -/
def addConn (live : List ℕ) (n : ℕ) : List ℕ :=
  if n ∈ live then live else live ++ [n]

def applyRegs (live : List ℕ) (regs : List ℕ) : List ℕ := regs.foldl addConn live

/-- Outcome of one fan-out pass of `broadcast` under interleaving. -/
structure HubRun where
  attempted : List ℕ
  delivered : List ℕ
  failed : List ℕ
  live : List ℕ
  errored : Bool
deriving DecidableEq

/-- The `for connection in active_connections:` loop with asyncio
interleaving.  CPython set iterators record the set's size at creation
and every `next` call first compares the current size against it,
raising `RuntimeError: Set changed size during iteration` on any
difference — including the final call that would otherwise raise
StopIteration.  Mutations of the live set can happen only while the
loop task is suspended in `await connection.send_json(...)`; `sched`
lists, per await, the subscribers concurrently registered during it.
(The model covers registration interleavings: sizes only grow, so the
pending enumeration is never consulted after a mutation except through
the size check, keeping the model faithful.) -/
def runPass (sendOk : ℕ → Bool) (size0 : ℕ) :
    List ℕ → List (List ℕ) → List ℕ → HubRun
  | [], _, live =>
    if live.length ≠ size0 then ⟨[], [], [], live, true⟩ else ⟨[], [], [], live, false⟩
  | c :: rest, sched, live =>
    if live.length ≠ size0 then ⟨[], [], [], live, true⟩
    else
      let live2 := applyRegs live (sched.headD [])
      let r := runPass sendOk size0 rest sched.tail live2
      if sendOk c then ⟨c :: r.attempted, c :: r.delivered, r.failed, r.live, r.errored⟩
      else ⟨c :: r.attempted, r.delivered, c :: r.failed, r.live, r.errored⟩

/-- `broadcast` under interleaved registrations: run the fan-out pass;
if the iteration raised, the exception propagates before the pruning
step; otherwise apply `difference_update` of the collected failures. -/
def broadcastConc (sendOk : ℕ → Bool) (live0 : List ℕ) (sched : List (List ℕ)) : HubRun :=
  let r := runPass sendOk live0.length live0 sched live0
  if r.errored then r
  else if r.failed = [] then r
  else ⟨r.attempted, r.delivered, r.failed, r.live.filter (fun c => ! r.failed.contains c), false⟩

theorem broadcastPass_spec (sendOk : ℕ → Bool) (l : List ℕ) :
    broadcastPass sendOk l =
      (l, l.filter (fun c => sendOk c), l.filter (fun c => ! sendOk c)) := by
  induction l with
  | nil => rfl
  | cons c rest ih =>
    simp only [broadcastPass, ih]
    cases h : sendOk c <;> simp [List.filter_cons, h]

theorem mem_connList (s : Finset ℕ) (c : ℕ) : c ∈ connList s ↔ c ∈ s := by
  simp [connList, Finset.mem_sort]

theorem broadcast_mem_conns (sendOk : ℕ → Bool) (s : Finset ℕ) (c : ℕ) :
    c ∈ (broadcast sendOk s).conns ↔ c ∈ s ∧ sendOk c = true := by
  simp only [broadcast, broadcastPass_spec]
  by_cases hnil : (connList s).filter (fun c => ! sendOk c) = []
  · rw [if_pos hnil]
    constructor
    · intro hc
      refine ⟨hc, ?_⟩
      have := List.filter_eq_nil_iff.mp hnil c ((mem_connList s c).mpr hc)
      simpa using this
    · exact fun hc => hc.1
  · rw [if_neg hnil]
    simp only [Finset.mem_sdiff, List.mem_toFinset, List.mem_filter, mem_connList]
    cases h : sendOk c <;> simp [h]

/-- C3: `broadcast` attempts delivery to every currently registered
subscriber regardless of other subscribers' outcomes: the pass covers
the whole enumeration of the original set, subscribers whose send
succeeds all receive the message even when others fail, the failures
are pruned only in the `difference_update` after the pass, and a
subsequent broadcast over the resulting set no longer attempts
delivery to them. -/
theorem broadcast_fanout_independent (sendOk : ℕ → Bool) (conns : Finset ℕ) :
    (broadcast sendOk conns).attempted = connList conns ∧
    (broadcast sendOk conns).delivered = (connList conns).filter (fun c => sendOk c) ∧
    (∀ c ∈ conns, sendOk c = true → c ∈ (broadcast sendOk conns).delivered) ∧
    (∀ c ∈ conns, sendOk c = false → c ∉ (broadcast sendOk conns).conns ∧
      c ∉ (broadcast sendOk ((broadcast sendOk conns).conns)).attempted) := by
  refine ⟨by simp [broadcast, broadcastPass_spec], by simp [broadcast, broadcastPass_spec],
    fun c hc hok => ?_, fun c hc hfail => ?_⟩
  · simp [broadcast, broadcastPass_spec, List.mem_filter, mem_connList, hc, hok]
  · have hnot : c ∉ (broadcast sendOk conns).conns := by
      intro hmem
      have := (broadcast_mem_conns sendOk conns c).mp hmem
      rw [hfail] at this
      exact absurd this.2 (by simp)
    refine ⟨hnot, ?_⟩
    intro hmem
    have : (broadcast sendOk ((broadcast sendOk conns).conns)).attempted =
        connList ((broadcast sendOk conns).conns) := by
      simp [broadcast, broadcastPass_spec]
    rw [this] at hmem
    exact hnot ((mem_connList _ c).mp hmem)

/-- C3 witness: a failing subscriber 2 among the set 1, 2, 3 does not
keep 1 and 3 from receiving, and 2 is gone from a subsequent pass. -/
theorem broadcast_fanout_independent_witness :
    (1 : ℕ) ∈ (broadcast (fun c => c != 2) ({1, 2, 3} : Finset ℕ)).delivered ∧
    (3 : ℕ) ∈ (broadcast (fun c => c != 2) ({1, 2, 3} : Finset ℕ)).delivered ∧
    ((2 : ℕ) ∉ (broadcast (fun c => c != 2) ({1, 2, 3} : Finset ℕ)).conns ∧
      (2 : ℕ) ∉ (broadcast (fun c => c != 2)
        ((broadcast (fun c => c != 2) ({1, 2, 3} : Finset ℕ)).conns)).attempted) :=
  ⟨(broadcast_fanout_independent _ _).2.2.1 1 (by decide) (by decide),
   (broadcast_fanout_independent _ _).2.2.1 3 (by decide) (by decide),
   (broadcast_fanout_independent _ _).2.2.2 2 (by decide) (by decide)⟩

/-- C10: a broadcast only ever shrinks the subscriber set; a subscriber
of the original set survives exactly when its send succeeded, so
exactly the failed sends are removed and nothing is added. -/
theorem broadcast_frame (sendOk : ℕ → Bool) (conns : Finset ℕ) :
    (broadcast sendOk conns).conns ⊆ conns ∧
    (∀ c ∈ conns, (c ∈ (broadcast sendOk conns).conns ↔ sendOk c = true)) := by
  constructor
  · intro c hc
    exact ((broadcast_mem_conns sendOk conns c).mp hc).1
  · intro c hc
    rw [broadcast_mem_conns]
    exact ⟨fun h => h.2, fun h => ⟨hc, h⟩⟩

/-- C10 witness at the set 4, 5 where only 4's send succeeds. -/
theorem broadcast_frame_witness :
    (broadcast (fun c => c == 4) ({4, 5} : Finset ℕ)).conns ⊆ ({4, 5} : Finset ℕ) ∧
    ((4 : ℕ) ∈ (broadcast (fun c => c == 4) ({4, 5} : Finset ℕ)).conns ↔ (4 == 4) = true) ∧
    ((5 : ℕ) ∈ (broadcast (fun c => c == 4) ({4, 5} : Finset ℕ)).conns ↔ (5 == 4) = true) :=
  ⟨(broadcast_frame _ _).1, (broadcast_frame _ _).2 4 (by decide), (broadcast_frame _ _).2 5 (by decide)⟩

/-- C2 (evidence of the code bug): the spec's contract makes removal
idempotent, but the WebSocketDisconnect handler at line 180 calls
Python `set.remove`, which raises KeyError for an absent element.
Concretely: subscriber 7 is the only member, its send fails during a
broadcast so the pass prunes it, and the subsequent disconnect-removal
of 7 raises instead of being a no-op.  (The broadcast-side
`difference_update` pruning itself is total and idempotent; only the
`remove` call violates the contract.) -/
theorem disconnect_remove_keyerror :
    (broadcast (fun _ => false) ({7} : Finset ℕ)).conns = ∅ ∧
    pySetRemove ((broadcast (fun _ => false) ({7} : Finset ℕ)).conns) 7 = .error () := by
  constructor <;> with_unfolding_all rfl

/-- C6: a line on which structural parsing fails decodes to Malformed,
and the reading loop treats it as a no-op: the subscriber set is
untouched, nothing is broadcast, and the remaining lines are processed
exactly as if the bad line had not occurred — one bad line never
terminates the loop. -/
theorem malformed_line_skipped (line : String) (h : decode line = .malformed)
    (sendOk : ℕ → Bool) (conns : Finset ℕ) (rest : List String) :
    ingestRun sendOk conns (line :: rest) = ingestRun sendOk conns rest := by
  simp [ingestRun, ingestLine, h]

/-- C6 witness at the spec's example line. -/
theorem malformed_line_skipped_witness :
    decode ("\x7bnot json") = .malformed ∧
    ingestRun (fun _ => true) {1} [("\x7bnot json"), ("x")] =
      ingestRun (fun _ => true) {1} [("x")] :=
  ⟨by with_unfolding_all rfl,
   malformed_line_skipped _ (by with_unfolding_all rfl) _ _ _⟩

/-- C7: a line that strips to nothing decodes to the Empty signal (in
particular never to Malformed, the constructors being distinct), and
the reading loop skips it silently: no record, no broadcast, no change
to the subscriber set. -/
theorem empty_line_skipped (line : String) (h : pyStrip line = ("")) :
    decode line = .empty ∧
    ∀ (sendOk : ℕ → Bool) (conns : Finset ℕ) (rest : List String),
      ingestRun sendOk conns (line :: rest) = ingestRun sendOk conns rest := by
  have hd : decode line = .empty := by simp [decode, h]
  exact ⟨hd, fun sendOk conns rest => by simp [ingestRun, ingestLine, hd]⟩

/-- C7 witness at the empty line and the all-whitespace line. -/
theorem empty_line_skipped_witness :
    decode ("") = .empty ∧ decode ("   ") = .empty ∧
    ingestRun (fun _ => true) {1} [("   "), ("x")] = ingestRun (fun _ => true) {1} [("x")] :=
  ⟨(empty_line_skipped ("") (by with_unfolding_all rfl)).1,
   (empty_line_skipped ("   ") (by with_unfolding_all rfl)).1,
   (empty_line_skipped ("   ") (by with_unfolding_all rfl)).2 _ _ _⟩

/-- C5: a `/joystick/button` request whose body carries the required
boolean `pressed` field triggers exactly one broadcast of the tagged
payload, delivered once to every current subscriber whose send
succeeds, followed by the ok acknowledgment; a body missing the field
is rejected with the client error, triggers zero broadcasts and leaves
the subscriber set untouched. -/
theorem submit_button_validation (sendOk : ℕ → Bool) (conns : Finset ℕ)
    (ms : List (String × Json)) :
    (∀ b, jLookup ms ("pressed") = some (.bool b) →
      submitButton sendOk conns (.obj ms) =
        ((broadcast sendOk conns).delivered.map (fun c => (c, joystickPayload b)),
          (broadcast sendOk conns).conns, .ok) ∧
      (∀ c ∈ conns, sendOk c = true →
        (c, joystickPayload b) ∈ (submitButton sendOk conns (.obj ms)).1) ∧
      ((submitButton sendOk conns (.obj ms)).1.map Prod.fst).Nodup ∧
      (∀ d ∈ (submitButton sendOk conns (.obj ms)).1, d.2 = joystickPayload b)) ∧
    (jLookup ms ("pressed") = none →
      submitButton sendOk conns (.obj ms) = ([], conns, .unprocessable)) := by
  constructor
  · intro b hb
    have hval : validateButton (.obj ms) = some b := by simp [validateButton, hb]
    have hsub : submitButton sendOk conns (.obj ms) =
        ((broadcast sendOk conns).delivered.map (fun c => (c, joystickPayload b)),
          (broadcast sendOk conns).conns, .ok) := by
      simp [submitButton, hval]
    refine ⟨hsub, ?_, ?_, ?_⟩
    · intro c hc hok
      rw [hsub]
      simp only [List.mem_map]
      refine ⟨c, ?_, rfl⟩
      simp [broadcast, broadcastPass_spec, List.mem_filter, mem_connList, hc, hok]
    · rw [hsub]
      have hmm : (((broadcast sendOk conns).delivered.map
          (fun c => (c, joystickPayload b))).map Prod.fst) =
          (broadcast sendOk conns).delivered := by
        simp [List.map_map, Function.comp_def]
      rw [hmm]
      simp only [broadcast, broadcastPass_spec]
      exact List.Nodup.filter _ (Finset.sort_nodup _ _)
    · intro d hd
      rw [hsub] at hd
      simp only [List.mem_map] at hd
      obtain ⟨c, _, hc⟩ := hd
      rw [← hc]
  · intro h0
    simp [submitButton, validateButton, h0]

/-- C5 witness: two subscribers, a valid body and a missing-field
body. -/
theorem submit_button_validation_witness :
    (submitButton (fun _ => true) ({1, 2} : Finset ℕ) (.obj [(("pressed"), .bool true)]) =
      ((broadcast (fun _ => true) ({1, 2} : Finset ℕ)).delivered.map
        (fun c => (c, joystickPayload true)),
        (broadcast (fun _ => true) ({1, 2} : Finset ℕ)).conns, .ok)) ∧
    ((1, joystickPayload true) ∈ (submitButton (fun _ => true) ({1, 2} : Finset ℕ)
      (.obj [(("pressed"), .bool true)])).1) ∧
    (submitButton (fun _ => true) ({1, 2} : Finset ℕ) (.obj []) =
      ([], ({1, 2} : Finset ℕ), .unprocessable)) :=
  ⟨((submit_button_validation _ _ _).1 true (by with_unfolding_all rfl)).1,
   ((submit_button_validation _ _ _).1 true (by with_unfolding_all rfl)).2.1 1 (by decide) rfl,
   (submit_button_validation _ _ _).2 (by with_unfolding_all rfl)⟩

/-- C8 counterexample: `find_arduino_port` can raise even though no
device matches.  A port reporting a truthy vendor id and no product id
(vid 0x1234, pid None) makes the log f-string at line 61 format None
with `04X`, raising TypeError before any return, so the function
neither returns absent nor any other value. -/
theorem find_port_raises_on_missing_pid :
    find_arduino_port [⟨("COM3"), some 0x1234, none⟩] = .error () ∧
    ∀ d : Option String, find_arduino_port [⟨("COM3"), some 0x1234, none⟩] ≠ .ok d := by
  refine ⟨by with_unfolding_all rfl, fun d h => ?_⟩
  rw [show find_arduino_port [⟨("COM3"), some 0x1234, none⟩] = .error () from
    by with_unfolding_all rfl] at h
  exact Except.noConfusion h

/-- A port enumeration entry that cannot trip the line 61 log
formatting: whenever the vendor id is truthy the product id is
present. -/
def pidPresentOk (p : PortInfo) : Bool :=
  match p.vid, p.pid with
  | some v, none => v == 0
  | _, _ => true

/-- C8 amended: for every enumeration in which no device combines a
truthy vendor id with an absent product id (any such device makes the
line 61 log f-string raise TypeError first), `find_arduino_port`
returns the first device in enumeration order whose identifier pair is
in the known table, and returns absent — without raising — when none
matches, including for zero attached devices. -/
theorem find_port_first_match (ports : List PortInfo)
    (h : ∀ p ∈ ports, pidPresentOk p = true) :
    find_arduino_port ports = .ok ((ports.find? portMatches).map PortInfo.device) := by
  induction ports with
  | nil => rfl
  | cons p rest ih =>
    have hp : pidPresentOk p = true := h p (by simp)
    have hrest : ∀ q ∈ rest, pidPresentOk q = true :=
      fun q hq => h q (List.mem_cons_of_mem p hq)
    have hfmt : formatVidPid p = .ok () := by
      cases hv : p.vid with
      | none => simp [formatVidPid, hv]
      | some v =>
        cases hpid : p.pid with
        | some i =>
          by_cases h0 : v = 0 <;> simp [formatVidPid, hv, hpid, h0]
        | none =>
          have hv0 : v = 0 := by simpa [pidPresentOk, hv, hpid] using hp
          simp [formatVidPid, hv, hpid, hv0]
    simp only [find_arduino_port, hfmt]
    by_cases hm : portMatches p = true
    · simp [hm, List.find?_cons_of_pos]
    · simp [hm, List.find?_cons_of_neg, ih hrest]

/-- C8 amended claim witness: first match wins among several ports and
the empty enumeration yields absent, neither raising. -/
theorem find_port_first_match_witness :
    find_arduino_port [⟨("p1"), some 1, some 1⟩, ⟨("p2"), some 0x2341, some 0x43⟩,
      ⟨("p3"), some 0x2341, some 0x43⟩] = .ok (some ("p2")) ∧
    find_arduino_port [] = .ok none :=
  ⟨(find_port_first_match _ (by decide)).trans (by with_unfolding_all rfl),
   (find_port_first_match [] (by decide)).trans rfl⟩

/-- C9 counterexample: with subscribers 1 and 2 both accepting sends,
registering subscriber 3 while the broadcast awaits the send to 1
changes the set size, so the iteration's next step raises
RuntimeError: the pass aborts, and subscriber 2 — a member of the set
when the pass began, whose send would have succeeded — is never
attempted and never receives the message.  `broadcast` therefore does
not iterate a consistent snapshot, and a concurrent register can
disrupt the in-flight fan-out pass. -/
theorem broadcast_register_interleave_error :
    (broadcastConc (fun _ => true) [1, 2] [[3]]).errored = true ∧
    (broadcastConc (fun _ => true) [1, 2] [[3]]).attempted = [1] ∧
    (2 : ℕ) ∉ (broadcastConc (fun _ => true) [1, 2] [[3]]).delivered := by
  decide

theorem runPass_no_interference (sendOk : ℕ → Bool) (size0 : ℕ) (pending : List ℕ)
    (live : List ℕ) (hlen : live.length = size0) :
    runPass sendOk size0 pending [] live =
      ⟨pending, pending.filter (fun c => sendOk c),
        pending.filter (fun c => ! sendOk c), live, false⟩ := by
  induction pending with
  | nil => simp [runPass, hlen]
  | cons c rest ih =>
    simp only [runPass, hlen]
    rw [if_neg (by omega)]
    simp only [List.headD, List.tail, applyRegs, List.foldl]
    rw [ih]
    cases h : sendOk c <;> simp [h, List.filter_cons]

/-- C9 amended: `broadcast` iterates the live subscriber set itself,
not a snapshot.  When no registration interleaves with the fan-out
pass, the pass is exactly the sequential best-effort fan-out over the
set as it was when the pass began: every member attempted, successes
delivered, failures collected and pruned afterwards, no error.  But
registering any genuinely new subscriber during any await of an
in-flight pass over a nonempty set changes the set's size and makes
the iteration's next step raise RuntimeError, aborting the pass. -/
theorem broadcast_interleave_behavior :
    (∀ (sendOk : ℕ → Bool) (live0 : List ℕ),
      broadcastConc sendOk live0 [] =
        ⟨live0, live0.filter (fun c => sendOk c), live0.filter (fun c => ! sendOk c),
          live0.filter (fun c => ! (live0.filter (fun d => ! sendOk d)).contains c),
          false⟩) ∧
    (∀ (sendOk : ℕ → Bool) (live0 : List ℕ) (n : ℕ), n ∉ live0 → live0 ≠ [] →
      (broadcastConc sendOk live0 [[n]]).errored = true) := by
  constructor
  · intro sendOk live0
    have h := runPass_no_interference sendOk live0.length live0 live0 rfl
    simp only [broadcastConc, h]
    by_cases hf : live0.filter (fun c => ! sendOk c) = []
    · simp [hf, List.filter_eq_self]
    · simp [hf]
  · intro sendOk live0 n hn hne
    obtain ⟨c, rest, rfl⟩ : ∃ c rest, live0 = c :: rest := by
      cases live0 with
      | nil => exact absurd rfl hne
      | cons c rest => exact ⟨c, rest, rfl⟩
    have hreg : applyRegs (c :: rest) [n] = (c :: rest) ++ [n] := by
      simp [applyRegs, addConn, hn]
    have hlen2 : ((c :: rest) ++ [n]).length ≠ (c :: rest).length := by simp
    have herr : runPass sendOk (c :: rest).length rest [] ((c :: rest) ++ [n]) =
        ⟨[], [], [], (c :: rest) ++ [n], true⟩ := by
      cases rest with
      | nil => simp [runPass]
      | cons d ds => simp [runPass]
    have hstep : runPass sendOk (c :: rest).length (c :: rest) [[n]] (c :: rest) =
        (if sendOk c then ⟨[c], [c], [], (c :: rest) ++ [n], true⟩
          else ⟨[c], [], [c], (c :: rest) ++ [n], true⟩ : HubRun) := by
      simp only [runPass]
      rw [if_neg (show ¬((c :: rest).length ≠ (c :: rest).length) from by omega)]
      simp only [List.headD, List.tail, hreg, herr]
    simp only [broadcastConc, hstep]
    cases h : sendOk c <;> simp [h]

/-- C9 amended claim witness: an interference-free pass over 5, 6 where
6's send fails, and an aborting pass caused by registering 10 into a
pass over 8, 9. -/
theorem broadcast_interleave_behavior_witness :
    broadcastConc (fun c => c == 5) [5, 6] [] = ⟨[5, 6], [5], [6], [5], false⟩ ∧
    (broadcastConc (fun _ => true) [8, 9] [[10]]).errored = true :=
  ⟨(broadcast_interleave_behavior.1 _ _).trans (by decide),
   broadcast_interleave_behavior.2 _ _ 10 (by decide) (by decide)⟩

/-- The six keys `filtered_data` extracts; every other key of a parsed
line is ignored. -/
def telemetryKeys : List String :=
  [("temperature_c"), ("humidity"), ("brightness"), ("sound"), ("intruder"), ("fire")]

theorem jLookup_filter (ms : List (String × Json)) (k : String)
    (hk : telemetryKeys.contains k = true) :
    jLookup (ms.filter (fun kv => telemetryKeys.contains kv.1)) k = jLookup ms k := by
  induction ms with
  | nil => rfl
  | cons kv rest ih =>
    by_cases hkv : telemetryKeys.contains kv.1 = true
    · simp only [List.filter_cons, hkv, if_pos]
      simp only [jLookup, ih]
    · have hne : (kv.1 == k) = false := by
        cases h : kv.1 == k with
        | false => rfl
        | true =>
          exact absurd (by rw [show kv.1 = k from by simpa using h]; exact hk) hkv
      simp only [List.filter_cons, hkv, if_neg, Bool.false_eq_true, not_false_eq_true, ih]
      cases hrest : jLookup rest k with
      | some v => simp [jLookup, hrest]
      | none => simp [jLookup, hrest, hne]

/-- C4: for every line whose stripped text is nonempty and whose
sentinel-corrected text parses to an object, `decode` yields exactly
the record extracted from that object; each of the four numeric keys
maps to the absent marker when missing and to the stored value when
present, `intruder` and `fire` default to False when missing, and keys
outside the six known ones have no effect on the record. -/
theorem decode_record_fields (line : String) (ms : List (String × Json))
    (h1 : pyStrip line ≠ (""))
    (h2 : json_loads (sentinelFix (pyStrip line)) = some (.obj ms)) :
    decode line = .ok (recordOf ms) ∧
    (jLookup ms ("temperature_c") = none → (recordOf ms).temperature_c = .null) ∧
    (jLookup ms ("humidity") = none → (recordOf ms).humidity = .null) ∧
    (jLookup ms ("brightness") = none → (recordOf ms).brightness = .null) ∧
    (jLookup ms ("sound") = none → (recordOf ms).sound = .null) ∧
    (jLookup ms ("intruder") = none → (recordOf ms).intruder = .bool false) ∧
    (jLookup ms ("fire") = none → (recordOf ms).fire = .bool false) ∧
    (∀ v, jLookup ms ("temperature_c") = some v → (recordOf ms).temperature_c = v) ∧
    (∀ v, jLookup ms ("humidity") = some v → (recordOf ms).humidity = v) ∧
    (∀ v, jLookup ms ("brightness") = some v → (recordOf ms).brightness = v) ∧
    (∀ v, jLookup ms ("sound") = some v → (recordOf ms).sound = v) ∧
    recordOf ms = recordOf (ms.filter (fun kv => telemetryKeys.contains kv.1)) := by
  refine ⟨by simp [decode, h1, h2],
    fun h => by simp [recordOf, jGet, h],
    fun h => by simp [recordOf, jGet, h],
    fun h => by simp [recordOf, jGet, h],
    fun h => by simp [recordOf, jGet, h],
    fun h => by simp [recordOf, jGetD, h],
    fun h => by simp [recordOf, jGetD, h],
    fun v h => by simp [recordOf, jGet, h],
    fun v h => by simp [recordOf, jGet, h],
    fun v h => by simp [recordOf, jGet, h],
    fun v h => by simp [recordOf, jGet, h],
    ?_⟩
  simp only [recordOf, jGet, jGetD]
  rw [jLookup_filter ms ("temperature_c") (by decide),
    jLookup_filter ms ("humidity") (by decide),
    jLookup_filter ms ("brightness") (by decide),
    jLookup_filter ms ("sound") (by decide),
    jLookup_filter ms ("intruder") (by decide),
    jLookup_filter ms ("fire") (by decide)]

/-- C4 witness: a line with one numeric key present, one unknown key
and one flag present; the remaining keys default. -/
theorem decode_record_fields_witness :
    decode ("\x7b\"humidity\":22.5,\"extra\":1,\"intruder\":true\x7d") =
      .ok (recordOf [(("humidity"), .num (45 / 2)), (("extra"), .num 1),
        (("intruder"), .bool true)]) ∧
    (recordOf [(("humidity"), .num (45 / 2)), (("extra"), .num 1),
      (("intruder"), .bool true)]).temperature_c = .null ∧
    (recordOf [(("humidity"), .num (45 / 2)), (("extra"), .num 1),
      (("intruder"), .bool true)]).humidity = .num (45 / 2) ∧
    recordOf [(("humidity"), .num (45 / 2)), (("extra"), .num 1), (("intruder"), .bool true)] =
      recordOf ([(("humidity"), .num (45 / 2)), (("extra"), .num 1),
        (("intruder"), .bool true)].filter (fun kv => telemetryKeys.contains kv.1)) :=
  ⟨(decode_record_fields _ _ (by decide) (by with_unfolding_all rfl)).1,
   (decode_record_fields ("\x7b\"humidity\":22.5,\"extra\":1,\"intruder\":true\x7d") _
     (by decide) (by with_unfolding_all rfl)).2.1 (by with_unfolding_all rfl),
   (decode_record_fields ("\x7b\"humidity\":22.5,\"extra\":1,\"intruder\":true\x7d") _
     (by decide) (by with_unfolding_all rfl)).2.2.2.2.2.2.2.2.1 _ (by with_unfolding_all rfl),
   (decode_record_fields ("\x7b\"humidity\":22.5,\"extra\":1,\"intruder\":true\x7d") _
     (by decide) (by with_unfolding_all rfl)).2.2.2.2.2.2.2.2.2.2.2⟩

/-- Whether the pattern `p0 :: pt` occurs as a contiguous substring. -/
def occurs (p0 : Char) (pt : List Char) : List Char → Bool
  | [] => false
  | c :: rest => ((c == p0) && pt.isPrefixOf rest) || occurs p0 pt rest

/-- Substring test on strings (specialised to nonempty patterns; the
program only searches for the two sentinel patterns). -/
def occursStr (pat s : String) : Bool :=
  match pat.data with
  | [] => true
  | p0 :: pt => occurs p0 pt s.data

theorem occurs_tail_false {p0 : Char} {pt : List Char} {c : Char} {rest : List Char}
    (h : occurs p0 pt (c :: rest) = false) : occurs p0 pt rest = false := by
  simp only [occurs, Bool.or_eq_false_iff] at h
  exact h.2

theorem occurs_drop_false (p0 : Char) (pt : List Char) :
    ∀ (n : ℕ) (s : List Char), occurs p0 pt s = false → occurs p0 pt (s.drop n) = false
  | 0, _, h => h
  | _ + 1, [], h => h
  | n + 1, _ :: rest, h => occurs_drop_false p0 pt n rest (occurs_tail_false h)

/-- Replacing every occurrence of a pattern leaves no occurrence of it
behind, provided the replacement can neither contain the pattern nor
seed a new occurrence across its boundaries: no occurrence of the
pattern starts inside the replacement followed by anything (`hskip`),
and no nonempty suffix of the pattern tail survives as a prefix of the
replacement followed by anything (`hpre`).  The second conjunct is the
inductive strengthening: a surviving nonempty suffix of the pattern
tail at the head of the output was already at the head of the
input. -/
theorem replaceAll_self_free (p0 : Char) (pt rep : List Char)
    (hskip : ∀ Z, occurs p0 pt (rep ++ Z) = occurs p0 pt Z)
    (hpre : ∀ ρ Z, ρ <:+ pt → ρ ≠ [] → ρ.isPrefixOf (rep ++ Z) = false) :
    ∀ (fuel : ℕ) (s : List Char), s.length ≤ fuel →
      occurs p0 pt (replaceAll p0 pt rep fuel s) = false ∧
      (∀ ρ, ρ <:+ pt → ρ ≠ [] →
        ρ.isPrefixOf (replaceAll p0 pt rep fuel s) = true → ρ.isPrefixOf s = true) := by
  intro fuel
  induction fuel with
  | zero =>
    intro s hs
    have hnil : s = [] := List.length_eq_zero.mp (Nat.le_zero.mp hs)
    subst hnil
    exact ⟨rfl, fun ρ hρ hne hp => hp⟩
  | succ fuel ih =>
    intro s hs
    match s with
    | [] => exact ⟨rfl, fun ρ hρ hne hp => hp⟩
    | c :: rest =>
      have hrestlen : rest.length ≤ fuel := by
        simp only [List.length_cons] at hs
        omega
      by_cases hb : ((c == p0) && pt.isPrefixOf rest) = true
      · have hre : replaceAll p0 pt rep (fuel + 1) (c :: rest) =
            rep ++ replaceAll p0 pt rep fuel (rest.drop pt.length) := by
          simp [replaceAll, hb]
        have hih := ih (rest.drop pt.length)
          (le_trans (by rw [List.length_drop]; omega) hrestlen)
        constructor
        · rw [hre, hskip]
          exact hih.1
        · intro ρ hρ hne hp
          rw [hre, hpre ρ _ hρ hne] at hp
          exact absurd hp (by simp)
      · have hre : replaceAll p0 pt rep (fuel + 1) (c :: rest) =
            c :: replaceAll p0 pt rep fuel rest := by
          simp [replaceAll, hb]
        have hih := ih rest hrestlen
        constructor
        · rw [hre]
          simp only [occurs, hih.1, Bool.or_false]
          cases hc : (c == p0) with
          | false => simp
          | true =>
            cases hp2 : pt.isPrefixOf (replaceAll p0 pt rep fuel rest) with
            | false => simp
            | true =>
              exfalso
              apply hb
              rw [hc, Bool.true_and]
              by_cases hz : pt = []
              · subst hz
                cases rest <;> rfl
              · exact hih.2 pt List.suffix_rfl hz hp2
        · intro ρ hρ hne hp
          rw [hre] at hp
          match ρ, hne with
          | ρ0 :: ρtl, _ =>
            have hsplit : (ρ0 == c) = true ∧
                ρtl.isPrefixOf (replaceAll p0 pt rep fuel rest) = true := by
              simpa [List.isPrefixOf] using hp
            have htl : ρtl.isPrefixOf rest = true := by
              by_cases hz : ρtl = []
              · subst hz
                cases rest <;> rfl
              · exact hih.2 ρtl ((List.suffix_cons ρ0 ρtl).trans hρ) hz hsplit.2
            simp [List.isPrefixOf, hsplit.1, htl]

/-- Replacing one pattern cannot introduce an occurrence of another
pattern that was absent from the input, under the same boundary
conditions on the other pattern versus the replacement text. -/
theorem replaceAll_preserves_free (q0 : Char) (qt : List Char) (p0 : Char) (pt rep : List Char)
    (hskip : ∀ Z, occurs q0 qt (rep ++ Z) = occurs q0 qt Z)
    (hpre : ∀ ρ Z, ρ <:+ qt → ρ ≠ [] → ρ.isPrefixOf (rep ++ Z) = false) :
    ∀ (fuel : ℕ) (s : List Char), s.length ≤ fuel → occurs q0 qt s = false →
      occurs q0 qt (replaceAll p0 pt rep fuel s) = false ∧
      (∀ ρ, ρ <:+ qt → ρ ≠ [] →
        ρ.isPrefixOf (replaceAll p0 pt rep fuel s) = true → ρ.isPrefixOf s = true) := by
  intro fuel
  induction fuel with
  | zero =>
    intro s hs hin
    have hnil : s = [] := List.length_eq_zero.mp (Nat.le_zero.mp hs)
    subst hnil
    exact ⟨rfl, fun ρ hρ hne hp => hp⟩
  | succ fuel ih =>
    intro s hs hin
    match s with
    | [] => exact ⟨rfl, fun ρ hρ hne hp => hp⟩
    | c :: rest =>
      have hrestlen : rest.length ≤ fuel := by
        simp only [List.length_cons] at hs
        omega
      have hinrest : occurs q0 qt rest = false := occurs_tail_false hin
      by_cases hb : ((c == p0) && pt.isPrefixOf rest) = true
      · have hre : replaceAll p0 pt rep (fuel + 1) (c :: rest) =
            rep ++ replaceAll p0 pt rep fuel (rest.drop pt.length) := by
          simp [replaceAll, hb]
        have hih := ih (rest.drop pt.length)
          (le_trans (by rw [List.length_drop]; omega) hrestlen)
          (occurs_drop_false q0 qt pt.length rest hinrest)
        constructor
        · rw [hre, hskip]
          exact hih.1
        · intro ρ hρ hne hp
          rw [hre, hpre ρ _ hρ hne] at hp
          exact absurd hp (by simp)
      · have hre : replaceAll p0 pt rep (fuel + 1) (c :: rest) =
            c :: replaceAll p0 pt rep fuel rest := by
          simp [replaceAll, hb]
        have hih := ih rest hrestlen hinrest
        constructor
        · rw [hre]
          simp only [occurs, hih.1, Bool.or_false]
          cases hc : (c == q0) with
          | false => simp
          | true =>
            cases hp2 : qt.isPrefixOf (replaceAll p0 pt rep fuel rest) with
            | false => simp
            | true =>
              exfalso
              have htl : qt.isPrefixOf rest = true := by
                by_cases hz : qt = []
                · subst hz
                  cases rest <;> rfl
                · exact hih.2 qt List.suffix_rfl hz hp2
              have : occurs q0 qt (c :: rest) = true := by
                simp [occurs, hc, htl]
              rw [hin] at this
              exact Bool.noConfusion this
        · intro ρ hρ hne hp
          rw [hre] at hp
          match ρ, hne with
          | ρ0 :: ρtl, _ =>
            have hsplit : (ρ0 == c) = true ∧
                ρtl.isPrefixOf (replaceAll p0 pt rep fuel rest) = true := by
              simpa [List.isPrefixOf] using hp
            have htl : ρtl.isPrefixOf rest = true := by
              by_cases hz : ρtl = []
              · subst hz
                cases rest <;> rfl
              · exact hih.2 ρtl ((List.suffix_cons ρ0 ρtl).trans hρ) hz hsplit.2
            simp [List.isPrefixOf, hsplit.1, htl]

theorem sentinelFix_data_eq (line : String) :
    (sentinelFix line).data =
      replaceAll ':' (['n', 'a', 'n', '\x7d']) ([':', 'n', 'u', 'l', 'l', '\x7d'])
        (replaceAll ':' (['n', 'a', 'n', ',']) ([':', 'n', 'u', 'l', 'l', ','])
          line.data.length line.data).length
        (replaceAll ':' (['n', 'a', 'n', ',']) ([':', 'n', 'u', 'l', 'l', ','])
          line.data.length line.data) := by
  with_unfolding_all rfl

theorem occursStr_nan_comma (s : String) :
    occursStr ((":nan,")) s = occurs ':' (['n', 'a', 'n', ',']) s.data := by
  with_unfolding_all rfl

theorem occursStr_nan_brace (s : String) :
    occursStr ((":nan\x7d")) s = occurs ':' (['n', 'a', 'n', '\x7d']) s.data := by
  with_unfolding_all rfl

theorem pre_nan_comma_null_comma : ∀ ρ Z, ρ <:+ (['n', 'a', 'n', ',']) → ρ ≠ [] →
    ρ.isPrefixOf (([':', 'n', 'u', 'l', 'l', ',']) ++ Z) = false := by
  intro ρ Z hρ hne
  have hm : ρ ∈ (['n', 'a', 'n', ',']).tails := (List.mem_tails ρ _).mpr hρ
  fin_cases hm
  · rfl
  · rfl
  · rfl
  · rfl
  · exact absurd rfl hne

theorem pre_nan_comma_null_brace : ∀ ρ Z, ρ <:+ (['n', 'a', 'n', ',']) → ρ ≠ [] →
    ρ.isPrefixOf (([':', 'n', 'u', 'l', 'l', '\x7d']) ++ Z) = false := by
  intro ρ Z hρ hne
  have hm : ρ ∈ (['n', 'a', 'n', ',']).tails := (List.mem_tails ρ _).mpr hρ
  fin_cases hm
  · rfl
  · rfl
  · rfl
  · rfl
  · exact absurd rfl hne

theorem pre_nan_brace_null_brace : ∀ ρ Z, ρ <:+ (['n', 'a', 'n', '\x7d']) → ρ ≠ [] →
    ρ.isPrefixOf (([':', 'n', 'u', 'l', 'l', '\x7d']) ++ Z) = false := by
  intro ρ Z hρ hne
  have hm : ρ ∈ (['n', 'a', 'n', '\x7d']).tails := (List.mem_tails ρ _).mpr hρ
  fin_cases hm
  · rfl
  · rfl
  · rfl
  · rfl
  · exact absurd rfl hne

/-- After the sentinel substitution no `:nan,` token remains: the first
replace eliminates every occurrence (the replacement `:null,` can
neither contain one nor seed one across a boundary), and the second
replace cannot reintroduce one. -/
theorem sentinelFix_no_nan_comma (line : String) :
    occursStr ((":nan,")) (sentinelFix line) = false := by
  rw [occursStr_nan_comma, sentinelFix_data_eq]
  have h1 : occurs ':' (['n', 'a', 'n', ','])
      (replaceAll ':' (['n', 'a', 'n', ',']) ([':', 'n', 'u', 'l', 'l', ','])
        line.data.length line.data) = false :=
    (replaceAll_self_free ':' (['n', 'a', 'n', ',']) ([':', 'n', 'u', 'l', 'l', ','])
      (fun _ => rfl) pre_nan_comma_null_comma line.data.length line.data le_rfl).1
  exact (replaceAll_preserves_free ':' (['n', 'a', 'n', ',']) ':' (['n', 'a', 'n', '\x7d'])
    ([':', 'n', 'u', 'l', 'l', '\x7d']) (fun _ => rfl) pre_nan_comma_null_brace
    _ _ le_rfl h1).1

/-- After the sentinel substitution no `:nan` followed by a closing
brace remains either. -/
theorem sentinelFix_no_nan_brace (line : String) :
    occursStr ((":nan\x7d")) (sentinelFix line) = false := by
  rw [occursStr_nan_brace, sentinelFix_data_eq]
  exact (replaceAll_self_free ':' (['n', 'a', 'n', '\x7d']) ([':', 'n', 'u', 'l', 'l', '\x7d'])
    (fun _ => rfl) pre_nan_brace_null_brace _ _ le_rfl).1

/-- C1: the codec's pre-parse sentinel substitution rewrites every
numeric-field token rendered as `nan` followed by a comma or a closing
brace (the token always sits right after its key's colon in the
device's compact rendering, so the substituted patterns are `:nan,`
and the brace one): afterwards no such token remains, and on the
spec's example line the substitution yields exactly the `null` text
with the same delimiter, with `decode` producing a record whose
`temperature_c` is the absent marker and whose humidity is 22.5. -/
theorem sentinel_substitution :
    (∀ line : String, occursStr ((":nan,")) (sentinelFix line) = false ∧
      occursStr ((":nan\x7d")) (sentinelFix line) = false) ∧
    sentinelFix ("\"temperature_c\":nan,\"humidity\":22.5\x7d") =
      ("\"temperature_c\":null,\"humidity\":22.5\x7d") ∧
    decode ("\x7b\"temperature_c\":nan,\"humidity\":22.5\x7d") =
      .ok ⟨.null, .num (45 / 2), .null, .null, .bool false, .bool false⟩ :=
  ⟨fun line => ⟨sentinelFix_no_nan_comma line, sentinelFix_no_nan_brace line⟩,
   by with_unfolding_all rfl, by with_unfolding_all rfl⟩
